import Mathlib

/-!
Verification development for the Lyra realtime voice-streaming client
(class RealtimeClient).  The client's audio pipeline and session logic are
shallowly embedded: sample buffers (Float32Array) become lists of rationals,
machine 16-bit integers become integers with explicit range handling,
stateful methods become pure functions on an explicit client-state record,
and the asynchronous drain loop becomes a small-step event machine.
Wire payloads that the source carries base64-encoded inside JSON are
modelled by their decoded byte lists; the base64 codec itself is not under
verification by any claim.
-/

namespace Lyra

/-- Audio samples (JS Float32 values) are modelled as rationals. -/
abbrev Sample : Type := ℚ

/-- One playback chunk: a variable-length buffer of normalized samples
(a Float32Array in the source). -/
abbrev Chunk : Type := List Sample

/-- Constant MIN_CHUNK_SIZE from RealtimeClient.queueAudio:
9600 samples = 400 ms at 24 kHz. -/
def MIN_CHUNK_SIZE : Nat := 9600

/-- Embedding of the merge-enqueue policy of RealtimeClient.queueAudio:
if the queue is non-empty and its tail chunk is shorter than
MIN_CHUNK_SIZE, the tail is popped and a combined buffer (tail followed by
the new data) is pushed; otherwise the new chunk is pushed as a new tail
entry. -/
def queueAudioMerge (q : List Chunk) (b : Chunk) : List Chunk :=
  match q.getLast? with
  | some lastChunk =>
      if lastChunk.length < MIN_CHUNK_SIZE then q.dropLast ++ [lastChunk ++ b]
      else q ++ [b]
  | none => q ++ [b]

theorem queueAudioMerge_flatten (q : List Chunk) (b : Chunk) :
    (queueAudioMerge q b).flatten = q.flatten ++ b := by
  rcases List.eq_nil_or_concat q with h | ⟨q', a, h⟩
  · subst h; simp [queueAudioMerge]
  · subst h
    simp only [List.concat_eq_append, queueAudioMerge, List.getLast?_concat,
      List.dropLast_concat]
    split <;> simp

/-- Session states of the client state machine (the union type of
currentState in the source). -/
inductive SessionState : Type
  | connecting | connected | listening | speaking | processing | error
deriving DecidableEq, Repr

/-- Speaker roles used by the transcript callback. -/
inductive Role : Type
  | user | assistant
deriving DecidableEq, Repr

/-- Client-originated wire frames.  The source serializes these as JSON;
audio payloads are modelled by their PCM16 integer samples rather than the
base64 text. -/
inductive ClientFrame : Type
  | start (action : String)
  | inputAudioBufferAppend (audio : List ℤ)
  | conversationItemCreate (text : String)
  | responseCreate
  | responseCancel
deriving DecidableEq, Repr

/-- Observable effects emitted by the client: frames sent on the channel
and callback invocations. -/
inductive OutEvent : Type
  | send (f : ClientFrame)
  | stateChange (st : SessionState)
  | transcriptCb (text : String) (role : Role)
  | messageCb (text : String)
  | audioCb (bytes : List Nat)
  | errorCb (msg : String)
  | closeCb
deriving DecidableEq, Repr

/-- The mutable fields of RealtimeClient that the verified claims touch.
wsOpen models (ws exists and ws.readyState === WebSocket.OPEN);
audioSourceActive models (audioSourceNode !== null). -/
structure ClientState : Type where
  wsOpen : Bool
  isConnected : Bool
  currentState : SessionState
  isSpeaking : Bool
  isPlayingAudio : Bool
  audioQueue : List Chunk
  reconnectAttempts : Nat
  isManuallyDisconnected : Bool
  audioSourceActive : Bool
deriving DecidableEq, Repr

/-- Field initializers of RealtimeClient (lines declaring ws = null,
isConnected = false, currentState = 'connecting', audioQueue = [], and so
on). -/
def initialState : ClientState where
  wsOpen := false
  isConnected := false
  currentState := .connecting
  isSpeaking := false
  isPlayingAudio := false
  audioQueue := []
  reconnectAttempts := 0
  isManuallyDisconnected := false
  audioSourceActive := false

/-- Embedding of RealtimeClient.setState: updates currentState and fires
the onStateChange callback only when the state actually changes. -/
def setState (s : ClientState) (st : SessionState) : ClientState × List OutEvent :=
  if s.currentState ≠ st then ({ s with currentState := st }, [.stateChange st])
  else (s, [])

/-- Embedding of RealtimeClient.interrupt: stops the active source node,
clears the audio queue, resets the draining and speaking flags, sends one
response.cancel frame when the channel is open (fire-and-forget: the
resulting state does not depend on any acknowledgment), and finally sets
the state to listening. -/
def interrupt (s : ClientState) : ClientState × List OutEvent :=
  let s1 : ClientState :=
    { s with audioSourceActive := false
             audioQueue := []
             isPlayingAudio := false
             isSpeaking := false }
  let sendEvs : List OutEvent :=
    if s1.wsOpen then [.send .responseCancel] else []
  let r := setState s1 .listening
  (r.1, sendEvs ++ r.2)

/-- Truncation toward zero, as JavaScript applies when a Number is stored
into an Int16Array (ToIntegerOrInfinity).  The encoder's operands always
lie inside the signed 16-bit range, so the subsequent modulo 2^16 wrap of
ToInt16 is the identity and is not modelled separately (see
pcm16Encode_range). -/
def ratTrunc (q : ℚ) : ℤ :=
  if q < 0 then ⌈q⌉ else ⌊q⌋

/-- Clamp of one sample in RealtimeClient.sendAudio:
Math.max(-1, Math.min(1, x)). -/
def clampSample (x : ℚ) : ℚ := max (-1) (min 1 x)

/-- PCM16 encoding of one sample, from RealtimeClient.sendAudio:
clamp to [-1, 1], then scale by 0x8000 when negative and by 0x7FFF when
non-negative, truncating to an integer on storage into the Int16Array. -/
def pcm16Encode (x : ℚ) : ℤ :=
  let sample := clampSample x
  if sample < 0 then ratTrunc (sample * 0x8000) else ratTrunc (sample * 0x7FFF)

/-- PCM16 decoding of one sample, from RealtimeClient.handleAudioDelta:
int16Data[i] / 32768.0. -/
def pcm16Decode (v : ℤ) : ℚ := (v : ℚ) / 32768

/-- Reinterpret an unsigned 16-bit value as a signed Int16, as the
Int16Array view does in handleAudioDelta. -/
def toSigned16 (v : Nat) : ℤ :=
  if v < 32768 then (v : ℤ) else (v : ℤ) - 65536

/-- Little-endian byte pairs to Int16 values, as the Int16Array view over
the decoded byte buffer reads them in handleAudioDelta. -/
def pairsToInt16 : List Nat → List ℤ
  | b0 :: b1 :: rest => toSigned16 (b0 + 256 * b1) :: pairsToInt16 rest
  | _ => []

/-- Constructing an Int16Array view over a buffer whose byte length is odd
throws a RangeError in JavaScript; handleAudioDelta's try/catch catches
it.  The odd-length case is therefore none here. -/
def bytesToInt16 (bytes : List Nat) : Option (List ℤ) :=
  if bytes.length % 2 = 0 then some (pairsToInt16 bytes) else none

/-- State-level embedding of RealtimeClient.queueAudio: merge-enqueue the
decoded chunk, then start the drain loop (whose synchronous prefix in
processAudioQueue sets isPlayingAudio) unless one is already running.
The asynchronous part of the drain loop is modelled by the DrainState
machine below. -/
def queueAudioState (s : ClientState) (c : Chunk) : ClientState :=
  let s1 : ClientState := { s with audioQueue := queueAudioMerge s.audioQueue c }
  if s1.isPlayingAudio then s1 else { s1 with isPlayingAudio := true }

/-- Embedding of RealtimeClient.handleAudioDelta, taking the payload as
the byte list produced by atob: an empty payload returns after a warning;
an odd-length payload raises inside the try block and is caught; otherwise
the bytes are read as little-endian Int16, scaled by 1/32768 to floats,
and queued.  All failures are caught locally and nothing is emitted. -/
def handleAudioDelta (s : ClientState) (bytes : List Nat) :
    ClientState × List OutEvent :=
  if bytes.length = 0 then (s, [])
  else
    match bytesToInt16 bytes with
    | none => (s, [])
    | some i16 => (queueAudioState s (i16.map pcm16Decode), [])

/-- Embedding of the response.audio.delta branch of
RealtimeClient.handleRealtimeMessage: when the delta payload is truthy,
set the speaking flag and state on the first delta of an utterance, then
hand the payload to handleAudioDelta. -/
def handleAudioDeltaMsg (s : ClientState) (bytes : List Nat) :
    ClientState × List OutEvent :=
  if bytes ≠ [] then
    let r1 : ClientState × List OutEvent :=
      if s.isSpeaking = false then
        let r := setState { s with isSpeaking := true } .speaking
        (r.1, r.2)
      else (s, [])
    let r2 := handleAudioDelta r1.1 bytes
    (r2.1, r1.2 ++ r2.2)
  else (s, [])

/-- Embedding of JavaScript String.prototype.trim as applied to
transcripts: removes whitespace from both ends.  Implemented structurally
over the character list so that concrete transcripts evaluate in the
kernel. -/
def jsTrim (s : String) : String :=
  String.mk
    (((s.data.dropWhile Char.isWhitespace).reverse.dropWhile
        Char.isWhitespace).reverse)

/-- Embedding of the conversation.item.input_audio_transcription.completed
branch of RealtimeClient.handleRealtimeMessage: on a truthy transcript,
interrupt the assistant when it is speaking and the trimmed transcript is
longer than 2 characters, then set state processing and deliver the
transcript to the user-transcript callback. -/
def handleTranscriptionCompleted (s : ClientState) (transcript : String) :
    ClientState × List OutEvent :=
  if transcript ≠ "" then
    let r1 : ClientState × List OutEvent :=
      if s.isSpeaking = true ∧ 2 < (jsTrim transcript).length then interrupt s
      else (s, [])
    let r2 := setState r1.1 .processing
    (r2.1, r1.2 ++ r2.2 ++ [.transcriptCb transcript .user])
  else (s, [])

/-- Server-originated messages after JSON parsing, tagged by their type
field.  Audio-delta payloads are modelled by their atob-decoded bytes. -/
inductive ServerMessage : Type
  | sessionCreated
  | sessionUpdated
  | transcriptionCompleted (transcript : String)
  | audioTranscriptDelta (delta : String)
  | audioTranscriptDone (transcript : String)
  | audioDelta (bytes : List Nat)
  | responseDone
  | errorEvent (err : String)
  | unrecognized (ty : String)
deriving DecidableEq, Repr

/-- Embedding of the switch in RealtimeClient.handleRealtimeMessage. -/
def handleRealtimeMessage (s : ClientState) :
    ServerMessage → ClientState × List OutEvent
  | .sessionCreated => (s, [])
  | .sessionUpdated => (s, [])
  | .transcriptionCompleted t => handleTranscriptionCompleted s t
  | .audioTranscriptDelta d =>
      (s, if d ≠ "" then [.messageCb d] else [])
  | .audioTranscriptDone t =>
      (s, if t ≠ "" then [.transcriptCb t .assistant] else [])
  | .audioDelta bytes => handleAudioDeltaMsg s bytes
  | .responseDone =>
      let s1 : ClientState := { s with isSpeaking := false }
      if s1.currentState ≠ .processing then setState s1 .listening
      else (s1, [])
  | .errorEvent e => (s, [.errorCb e])
  | .unrecognized _ => (s, [])

/-- Raw data of one inbound channel message: a JSON text frame (already
parsed into its tagged form) or a raw binary frame. -/
inductive WireData : Type
  | text (m : ServerMessage)
  | binary (bytes : List Nat)
deriving DecidableEq, Repr

/-- Embedding of RealtimeClient.handleMessage: text frames are parsed and
dispatched; binary frames are handed to the onAudio callback. -/
def handleMessage (s : ClientState) : WireData → ClientState × List OutEvent
  | .text m => handleRealtimeMessage s m
  | .binary bytes => (s, [.audioCb bytes])

/-- Connection-deadline constant of RealtimeClient.connect: the open
acknowledgment must arrive within 10000 ms. -/
def connectTimeoutMs : Nat := 10000

/-- Outcome of the open/timeout/error race awaited inside connect. -/
inductive ConnectOutcome : Type
  | opened
  | timedOut
  | socketError
deriving DecidableEq, Repr

/-- Errors with which connect can reject. -/
inductive ConnectError : Type
  | alreadyConnected
  | connectionTimeout
  | socketFailure
deriving DecidableEq, Repr

/-- Result of one connect call: the client state afterwards, the emitted
events, and the rejection reason when the call failed. -/
structure ConnectResult : Type where
  state : ClientState
  events : List OutEvent
  err : Option ConnectError
deriving DecidableEq, Repr

/-- Embedding of RealtimeClient.connect: an Already-connected guard up
front (before anything is mutated); otherwise the call resolves or
rejects according to the awaited outcome.  On open the client marks
itself connected, resets the reconnect counter and the manual-disconnect
flag, sends the session-start frame, and transitions to connected.  On
timeout the promise rejects after connectTimeoutMs with no state change
modelled by the handlers. -/
def connectRun (s : ClientState) (outcome : ConnectOutcome) : ConnectResult :=
  if s.isConnected then ⟨s, [], some .alreadyConnected⟩
  else
    match outcome with
    | .opened =>
        let s1 : ClientState :=
          { s with wsOpen := true
                   isConnected := true
                   reconnectAttempts := 0
                   isManuallyDisconnected := false }
        let r := setState s1 .connected
        ⟨r.1, .send (.start "start") :: r.2, none⟩
    | .timedOut => ⟨s, [], some .connectionTimeout⟩
    | .socketError =>
        let r := setState s .error
        ⟨r.1, r.2 ++ [.errorCb "WebSocket error"], some .socketFailure⟩

/-- Reconnect constants of RealtimeClient:
maxReconnectAttempts = 5, reconnectDelay = 1000 ms. -/
def maxReconnectAttempts : Nat := 5

def reconnectDelayBase : Nat := 1000

/-- Trace of one run of the reconnect loop: the backoff delays waited
before each attempt in order, the number of onError reports, and the
value of the attempt counter when the loop stops (connect resets it to 0
on success). -/
structure ReconnectRun : Type where
  delays : List Nat
  errorReports : Nat
  finalAttempts : Nat
deriving DecidableEq, Repr

/-- Embedding of RealtimeClient.attemptReconnect.  connectOk n tells
whether the (n+1)-th connect attempt (made with the counter already
incremented to n+1) succeeds.  fuel is maxReconnectAttempts - attempts:
the source's top guard (attempts >= max reports the error once and
returns) coincides with fuel = 0, and every recursive call is guarded by
attempts + 1 < max so the guards below are verbatim otherwise. -/
def attemptReconnectGo (connectOk : Nat → Bool) :
    Nat → Nat → ReconnectRun
  | 0, attempts => ⟨[], 1, attempts⟩
  | fuel + 1, attempts =>
      let delay := reconnectDelayBase * 2 ^ ((attempts + 1) - 1)
      if connectOk attempts then ⟨[delay], 0, 0⟩
      else if attempts + 1 < maxReconnectAttempts then
        let r := attemptReconnectGo connectOk fuel (attempts + 1)
        ⟨delay :: r.delays, r.errorReports, r.finalAttempts⟩
      else ⟨[delay], 1, attempts + 1⟩

/-- One run of the reconnect loop starting from the given attempt
counter. -/
def attemptReconnect (connectOk : Nat → Bool) (attempts : Nat) : ReconnectRun :=
  attemptReconnectGo connectOk (maxReconnectAttempts - attempts) attempts

/-- Events of the playback pipeline: an inbound audio-delta enqueues a
decoded chunk (RealtimeClient.queueAudio), and step is one turn of an
active drain loop (one iteration of the while loop of
processAudioQueue, or its exit). -/
inductive DrainEvent : Type
  | enqueue (c : Chunk)
  | step
deriving Repr

/-- State of the playback pipeline: the queue, the isPlayingAudio guard,
the number of drain-loop invocations currently active (ghost, counts the
processAudioQueue calls that passed the entry guard and have not yet
returned), the chunks popped and played so far (ghost), and the log of
arrived chunks (ghost). -/
structure DrainState : Type where
  queue : List Chunk
  playing : Bool
  loops : Nat
  played : List Chunk
  arrivals : List Chunk
deriving Repr

def drainInit : DrainState := ⟨[], false, 0, [], []⟩

/-- Small-step transition of the playback pipeline.  enqueue performs the
merge-enqueue of queueAudio and then calls processAudioQueue unless the
guard isPlayingAudio is set; the entered loop's synchronous prefix flips
the guard.  step advances an active loop: while the guard holds and the
queue is non-empty it shifts the head chunk and plays it; otherwise the
loop returns, clearing the guard. -/
def drainStep (s : DrainState) : DrainEvent → DrainState
  | .enqueue c =>
      let s1 : DrainState :=
        { s with queue := queueAudioMerge s.queue c
                 arrivals := s.arrivals ++ [c] }
      if s1.playing then s1
      else { s1 with playing := true, loops := s1.loops + 1 }
  | .step =>
      if s.loops = 0 then s
      else
        match s.queue, s.playing with
        | c :: rest, true =>
            { s with queue := rest, played := s.played ++ [c] }
        | _, _ => { s with loops := s.loops - 1, playing := false }

/-- A trace of the playback pipeline from the initial state. -/
def drainRun (evs : List DrainEvent) : DrainState :=
  evs.foldl drainStep drainInit

/-- One queued chunk together with its playback fate: playFails tells
whether playAudioChunk rejects for this chunk (the environment's choice,
for example a malformed buffer). -/
structure PChunk : Type where
  samples : List ℚ
  playFails : Bool
deriving DecidableEq, Repr

/-- Embedding of playAudioChunk's observable outcome for one chunk. -/
def playAudioChunk (c : PChunk) : Except String Unit :=
  if c.playFails then .error "Error playing audio chunk" else .ok ()

/-- Embedding of the while loop of RealtimeClient.processAudioQueue run
to completion over a queue (with the isPlayingAudio condition held):
shift the head, skip empty buffers, try to play, catch any per-chunk
error and continue with the next chunk.  Returns the successfully played
chunks in order and the number of errors surfaced to the caller through
the onError callback (the catch block only logs, so the loop body never
reaches that callback). -/
def processAudioQueueRun : List PChunk → List PChunk × Nat
  | [] => ([], 0)
  | c :: rest =>
      if c.samples.length = 0 then processAudioQueueRun rest
      else
        match playAudioChunk c with
        | .ok _ =>
            let r := processAudioQueueRun rest
            (c :: r.1, r.2)
        | .error _ =>
            let r := processAudioQueueRun rest
            (r.1, r.2)

/-- Embedding of the look-ahead scheduling block of
RealtimeClient.playAudioChunk.  cursor is this.nextNoteTime (the source
reads it as nextNoteTime || 0; the cursor is initialized to 0 and never
becomes negative, so the two coincide); t1 is
playbackAudioContext.currentTime read when computing startTime, t2 the
same clock read again at the catch-up check (the audio clock only moves
forward, so t1 <= t2); duration is audioBuffer.duration.  Returns the
chunk's start time and the new cursor. -/
def playChunkSchedule (cursor t1 t2 duration : ℚ) : ℚ × ℚ :=
  let startTime := max t1 cursor
  let next := startTime + duration
  let next2 := if next < t2 then t2 else next
  (startTime, next2)

/-- Invariant of the playback pipeline: the number of active drain loops
is exactly the isPlayingAudio guard, and the samples already played
followed by the samples still queued are the arrived samples in order. -/
def DrainInv (s : DrainState) : Prop :=
  s.loops = (if s.playing then 1 else 0) ∧
  s.played.flatten ++ s.queue.flatten = s.arrivals.flatten

theorem drainStep_inv (s : DrainState) (e : DrainEvent)
    (h : DrainInv s) : DrainInv (drainStep s e) := by
  obtain ⟨q, p, l, pl, ar⟩ := s
  obtain ⟨hl, hf⟩ := h
  simp only at hl hf
  cases e with
  | enqueue c =>
      have hfl : pl.flatten ++ (queueAudioMerge q c).flatten = (ar ++ [c]).flatten := by
        rw [queueAudioMerge_flatten, ← List.append_assoc, hf]
        simp
      cases p with
      | true => exact ⟨by simp [drainStep, hl], by simpa [drainStep] using hfl⟩
      | false =>
          simp at hl
          exact ⟨by simp [drainStep, hl], by simpa [drainStep] using hfl⟩
  | step =>
      by_cases h0 : l = 0
      · exact ⟨by simpa [drainStep, h0] using hl, by simpa [drainStep, h0] using hf⟩
      · cases p with
        | false => simp at hl; exact absurd hl h0
        | true =>
            simp only [if_true] at hl
            cases q with
            | nil =>
                refine ⟨by simp [drainStep, h0, hl], ?_⟩
                simp [drainStep, h0, hl]
                simpa using hf
            | cons c rest =>
                refine ⟨by simp [drainStep, h0, hl], ?_⟩
                simp only [drainStep, h0, if_neg h0]
                simpa [List.append_assoc] using hf

theorem drainRun_inv (evs : List DrainEvent) : DrainInv (drainRun evs) := by
  have hgen : ∀ s, DrainInv s → DrainInv (evs.foldl drainStep s) := by
    induction evs with
    | nil => exact fun s h => h
    | cons e rest ih => exact fun s h => ih _ (drainStep_inv s e h)
  exact hgen drainInit ⟨rfl, rfl⟩

/-- C1: at most one playback drain loop is ever active per session, for
every sequence of inbound audio-delta enqueues interleaved with drain
turns, and playback is FIFO: the samples played so far followed by the
samples still queued equal the arrived samples in arrival order (merges
only concatenate, never reorder). -/
theorem C1_single_drain_loop_and_fifo (evs : List DrainEvent) :
    (drainRun evs).loops ≤ 1 ∧
    (drainRun evs).played.flatten ++ (drainRun evs).queue.flatten =
      (drainRun evs).arrivals.flatten := by
  obtain ⟨hl, hf⟩ := drainRun_inv evs
  refine ⟨?_, hf⟩
  rw [hl]
  split <;> omega

/-- C2: enqueueing chunk B merges it into a short tail chunk A
(fewer than MIN_CHUNK_SIZE = 9600 samples) in place, producing the single
entry A ++ B of length len A + len B with the other entries unchanged,
and otherwise pushes B as a new tail entry. -/
theorem C2_enqueue_merge_policy (q : List Chunk) (a b : Chunk) :
    (q.getLast? = some a → a.length < MIN_CHUNK_SIZE →
      queueAudioMerge q b = q.dropLast ++ [a ++ b] ∧
      (a ++ b).length = a.length + b.length) ∧
    (q.getLast? = some a → ¬ a.length < MIN_CHUNK_SIZE →
      queueAudioMerge q b = q ++ [b]) ∧
    (q = [] → queueAudioMerge q b = [b]) := by
  refine ⟨?_, ?_, ?_⟩
  · intro h hlen
    refine ⟨?_, List.length_append a b⟩
    simp [queueAudioMerge, h, hlen]
  · intro h hlen
    simp [queueAudioMerge, h, hlen]
  · intro h
    subst h
    rfl

theorem C2_enqueue_merge_policy_witness :
    (queueAudioMerge [[(1 : ℚ), 2]] [3] =
        [[(1 : ℚ), 2]].dropLast ++ [[(1 : ℚ), 2] ++ [3]] ∧
      ([(1 : ℚ), 2] ++ [3]).length = [(1 : ℚ), 2].length + [3].length) ∧
    queueAudioMerge [List.replicate MIN_CHUNK_SIZE (0 : ℚ)] [3] =
      [List.replicate MIN_CHUNK_SIZE (0 : ℚ)] ++ [[3]] := by
  refine ⟨(C2_enqueue_merge_policy [[(1 : ℚ), 2]] [(1 : ℚ), 2] [3]).1 rfl (by decide), ?_⟩
  exact (C2_enqueue_merge_policy [List.replicate MIN_CHUNK_SIZE (0 : ℚ)]
    (List.replicate MIN_CHUNK_SIZE (0 : ℚ)) [3]).2.1 rfl (by simp)

/-- C3: after interrupt, in every state, the queue is empty, the draining
and speaking flags are false, the session state is listening, and exactly
one response.cancel frame was sent when the channel is open (none when it
is closed); the resulting state is a pure function of the prior local
state, independent of any acknowledgment. -/
theorem C3_interrupt_clears_state (s : ClientState) :
    (interrupt s).1.audioQueue = [] ∧
    (interrupt s).1.isPlayingAudio = false ∧
    (interrupt s).1.isSpeaking = false ∧
    (interrupt s).1.currentState = .listening ∧
    (interrupt s).2.count (.send .responseCancel) =
      (if s.wsOpen then 1 else 0) := by
  unfold interrupt setState
  by_cases hw : s.wsOpen <;>
    by_cases hc : s.currentState = SessionState.listening <;>
      simp [hw, hc]

/-- C7: running the drain loop over any queue in which some chunks fail
to play yields exactly the non-empty, non-failing chunks, in order — a
failing chunk never stalls or aborts the rest — and surfaces zero errors
to the caller. -/
theorem C7_drain_survives_chunk_failures (q : List PChunk) :
    processAudioQueueRun q =
      (q.filter (fun c => !(c.samples.length == 0) && !c.playFails), 0) := by
  induction q with
  | nil => rfl
  | cons c rest ih =>
      by_cases h1 : c.samples.length = 0
      · simp [processAudioQueueRun, h1, ih]
      · by_cases h2 : c.playFails
        · simp [processAudioQueueRun, playAudioChunk, h1, h2, ih]
        · simp [processAudioQueueRun, playAudioChunk, h1, h2, ih]

/-- C9: each scheduled chunk starts at max(currentClockTime,
scheduleCursor); the cursor is advanced to that start time plus the
chunk's duration, except that a cursor that has fallen behind the clock
is reset to the clock; and the cursor never decreases. -/
theorem C9_schedule_cursor (cursor t1 t2 duration : ℚ)
    (hdur : 0 ≤ duration) (_hclock : t1 ≤ t2) :
    (playChunkSchedule cursor t1 t2 duration).1 = max t1 cursor ∧
    ((playChunkSchedule cursor t1 t2 duration).2 =
        (playChunkSchedule cursor t1 t2 duration).1 + duration ∨
      ((playChunkSchedule cursor t1 t2 duration).1 + duration < t2 ∧
        (playChunkSchedule cursor t1 t2 duration).2 = t2)) ∧
    cursor ≤ (playChunkSchedule cursor t1 t2 duration).2 := by
  have hcur : cursor ≤ max t1 cursor := le_max_right t1 cursor
  unfold playChunkSchedule
  by_cases h : max t1 cursor + duration < t2
  · refine ⟨rfl, Or.inr ⟨h, by simp [h]⟩, ?_⟩
    simp only [if_pos h]
    linarith
  · refine ⟨rfl, Or.inl (by simp [h]), ?_⟩
    simp only [if_neg h]
    linarith

theorem C9_schedule_cursor_witness :
    (playChunkSchedule 0 1 1 2).1 = max 1 0 ∧
    ((playChunkSchedule 0 1 1 2).2 = (playChunkSchedule 0 1 1 2).1 + 2 ∨
      ((playChunkSchedule 0 1 1 2).1 + 2 < 1 ∧
        (playChunkSchedule 0 1 1 2).2 = 1)) ∧
    (0 : ℚ) ≤ (playChunkSchedule 0 1 1 2).2 :=
  C9_schedule_cursor 0 1 1 2 (by norm_num) (le_refl 1)

/-- C6 counterexample: a raw binary frame is NOT treated identically to a
decoded response.audio.delta frame.  On the bytes [0, 1] from the initial
state, the binary path hands the data to the onAudio callback and leaves
the state untouched, while the audio-delta path decodes, queues and
starts playback — the results differ. -/
theorem C6_counterexample :
    ¬ handleMessage initialState (.binary [0, 1]) =
        handleMessage initialState (.text (.audioDelta [0, 1])) := by
  decide

/-- C6 amended: an inbound raw binary frame is accepted (it is never
fatal) but is routed to the onAudio callback with the client state
unchanged; it does not go through the audio-delta decode, queue and
playback path. -/
theorem C6_binary_routed_to_callback (s : ClientState) (bytes : List Nat) :
    handleMessage s (.binary bytes) = (s, [OutEvent.audioCb bytes]) := rfl

/-- C8: connect rejects with the timeout error when no open acknowledgment
arrives within the 10000 ms deadline; on open it immediately sends the
session-start frame and transitions to connected; and a duplicate connect
while already connected rejects with the already-connected error leaving
the state untouched. -/
theorem C8_connect_behavior (s : ClientState) (outcome : ConnectOutcome) :
    (s.isConnected = true →
      connectRun s outcome = ⟨s, [], some .alreadyConnected⟩) ∧
    connectTimeoutMs = 10000 ∧
    (s.isConnected = false →
      connectRun s .timedOut = ⟨s, [], some .connectionTimeout⟩) ∧
    (s.isConnected = false →
      (connectRun s .opened).err = none ∧
      (connectRun s .opened).events.head? = some (.send (.start "start")) ∧
      (connectRun s .opened).state.currentState = .connected ∧
      (connectRun s .opened).state.isConnected = true) := by
  refine ⟨?_, rfl, ?_, ?_⟩
  · intro h
    simp [connectRun, h]
  · intro h
    simp [connectRun, h]
  · intro h
    by_cases hc : s.currentState = SessionState.connected <;>
      simp [connectRun, setState, h, hc]

theorem C8_connect_behavior_witness :
    connectRun { initialState with isConnected := true } .opened =
      ⟨{ initialState with isConnected := true }, [], some .alreadyConnected⟩ ∧
    connectRun initialState .timedOut =
      ⟨initialState, [], some .connectionTimeout⟩ ∧
    (connectRun initialState .opened).err = none ∧
    (connectRun initialState .opened).events.head? =
      some (.send (.start "start")) ∧
    (connectRun initialState .opened).state.currentState = .connected :=
  ⟨(C8_connect_behavior { initialState with isConnected := true } .opened).1 rfl,
   (C8_connect_behavior initialState .opened).2.2.1 rfl,
   ((C8_connect_behavior initialState .opened).2.2.2 rfl).1,
   ((C8_connect_behavior initialState .opened).2.2.2 rfl).2.1,
   ((C8_connect_behavior initialState .opened).2.2.2 rfl).2.2.1⟩

/-- C10: when a finalized user transcript arrives while the assistant is
speaking and its trimmed length exceeds 2, the client interrupts (queue
cleared, draining and speaking flags reset, one response.cancel sent when
the channel is open) before the stateChange to processing and before the
transcript is delivered; a transcript whose trimmed length is at most 2
triggers no interruption and no cancel frame. -/
theorem C10_transcript_interrupts_speaking (s : ClientState) (t : String) :
    (s.isSpeaking = true → 2 < (jsTrim t).length →
      (handleTranscriptionCompleted s t).1.audioQueue = [] ∧
      (handleTranscriptionCompleted s t).1.isPlayingAudio = false ∧
      (handleTranscriptionCompleted s t).1.isSpeaking = false ∧
      (handleTranscriptionCompleted s t).1.currentState = .processing ∧
      (handleTranscriptionCompleted s t).2 =
        (if s.wsOpen then [OutEvent.send .responseCancel] else []) ++
          (if s.currentState ≠ .listening
            then [OutEvent.stateChange .listening] else []) ++
          [OutEvent.stateChange .processing, OutEvent.transcriptCb t .user]) ∧
    ((jsTrim t).length ≤ 2 →
      (handleTranscriptionCompleted s t).1.audioQueue = s.audioQueue ∧
      OutEvent.send .responseCancel ∉ (handleTranscriptionCompleted s t).2) := by
  constructor
  · intro hs hlen
    have ht : t ≠ "" := by
      intro h
      subst h
      revert hlen
      decide
    unfold handleTranscriptionCompleted
    rw [if_pos ht, if_pos ⟨hs, hlen⟩]
    unfold interrupt setState
    by_cases hw : s.wsOpen <;>
      by_cases hc : s.currentState = SessionState.listening <;>
        simp [hw, hc]
  · intro hlen
    have hguard : ¬ (s.isSpeaking = true ∧ 2 < (jsTrim t).length) := by
      rintro ⟨-, h⟩
      omega
    unfold handleTranscriptionCompleted
    by_cases ht : t = ""
    · simp [ht]
    · rw [if_pos ht, if_neg hguard]
      unfold setState
      by_cases hc : s.currentState = SessionState.processing <;> simp [hc]

/-- Concrete client state used to witness C10: the assistant is speaking
with an open channel and one queued chunk. -/
def speakingState : ClientState :=
  { initialState with
      isSpeaking := true
      wsOpen := true
      currentState := .speaking
      audioQueue := [[1]] }

theorem C10_transcript_interrupts_speaking_witness :
    (handleTranscriptionCompleted speakingState "stop it").1.audioQueue = [] ∧
    (handleTranscriptionCompleted speakingState "stop it").1.isPlayingAudio = false ∧
    (handleTranscriptionCompleted speakingState "stop it").1.isSpeaking = false ∧
    (handleTranscriptionCompleted speakingState "stop it").1.currentState = .processing ∧
    (handleTranscriptionCompleted speakingState "stop it").2 =
      (if speakingState.wsOpen then [OutEvent.send .responseCancel] else []) ++
        (if speakingState.currentState ≠ .listening
          then [OutEvent.stateChange .listening] else []) ++
        [OutEvent.stateChange .processing, OutEvent.transcriptCb "stop it" .user] :=
  (C10_transcript_interrupts_speaking speakingState "stop it").1 rfl (by decide)

/-- Every delay emitted by the reconnect loop follows the exponential
backoff formula relative to the attempt counter at entry. -/
theorem attemptReconnectGo_getD (f : Nat → Bool) :
    ∀ fuel attempts i, i < (attemptReconnectGo f fuel attempts).delays.length →
      (attemptReconnectGo f fuel attempts).delays.getD i 0 =
        reconnectDelayBase * 2 ^ (attempts + i) := by
  intro fuel
  induction fuel with
  | zero =>
      intro attempts i h
      simp [attemptReconnectGo] at h
  | succ fuel ih =>
      intro attempts i h
      simp only [attemptReconnectGo] at h ⊢
      by_cases hok : f attempts
      · simp only [hok, if_pos] at h ⊢
        simp at h
        subst h
        simp
      · by_cases h2 : attempts + 1 < maxReconnectAttempts
        · simp only [hok, if_neg, Bool.false_eq_true, if_false, h2, if_pos] at h ⊢
          cases i with
          | zero => simp
          | succ j =>
              simp only [List.length_cons, Nat.succ_lt_succ_iff] at h
              have hj := ih (attempts + 1) j h
              simp only [List.getD_cons_succ, hj]
              have hexp : attempts + 1 + j = attempts + (j + 1) := by omega
              rw [hexp]
        · simp only [hok, if_neg, Bool.false_eq_true, if_false, h2] at h ⊢
          simp at h
          subst h
          simp

/-- The reconnect loop makes at most fuel further attempts. -/
theorem attemptReconnectGo_length_le (f : Nat → Bool) :
    ∀ fuel attempts, (attemptReconnectGo f fuel attempts).delays.length ≤ fuel := by
  intro fuel
  induction fuel with
  | zero => intro attempts; simp [attemptReconnectGo]
  | succ fuel ih =>
      intro attempts
      simp only [attemptReconnectGo]
      by_cases hok : f attempts
      · simp [hok]
      · by_cases h2 : attempts + 1 < maxReconnectAttempts
        · simp only [hok, Bool.false_eq_true, if_false, h2, if_pos,
            List.length_cons]
          exact Nat.succ_le_succ (ih (attempts + 1))
        · simp [hok, h2]

/-- The reconnect loop reports at most one error. -/
theorem attemptReconnectGo_errors_le (f : Nat → Bool) :
    ∀ fuel attempts, (attemptReconnectGo f fuel attempts).errorReports ≤ 1 := by
  intro fuel
  induction fuel with
  | zero => intro attempts; simp [attemptReconnectGo]
  | succ fuel ih =>
      intro attempts
      simp only [attemptReconnectGo]
      by_cases hok : f attempts
      · simp [hok]
      · by_cases h2 : attempts + 1 < maxReconnectAttempts
        · simpa [hok, h2] using ih (attempts + 1)
        · simp [hok, h2]

/-- The attempt counter at exit is bounded by its entry value plus the
remaining fuel. -/
theorem attemptReconnectGo_final_le (f : Nat → Bool) :
    ∀ fuel attempts,
      (attemptReconnectGo f fuel attempts).finalAttempts ≤ attempts + fuel := by
  intro fuel
  induction fuel with
  | zero => intro attempts; simp [attemptReconnectGo]
  | succ fuel ih =>
      intro attempts
      simp only [attemptReconnectGo]
      by_cases hok : f attempts
      · simp [hok]
      · by_cases h2 : attempts + 1 < maxReconnectAttempts
        · simp only [hok, Bool.false_eq_true, if_false, h2, if_pos]
          have := ih (attempts + 1)
          omega
        · simp only [hok, Bool.false_eq_true, if_false, h2, if_false]
          omega

/-- When every connect attempt fails, the loop exhausts the cap, making
exactly fuel attempts, and reports the failure exactly once. -/
theorem attemptReconnectGo_allfail (f : Nat → Bool)
    (hf : ∀ n, f n = false) :
    ∀ fuel attempts, fuel = maxReconnectAttempts - attempts →
      attempts < maxReconnectAttempts →
      (attemptReconnectGo f fuel attempts).errorReports = 1 ∧
      (attemptReconnectGo f fuel attempts).delays.length = fuel := by
  have hmax : maxReconnectAttempts = 5 := rfl
  intro fuel
  induction fuel with
  | zero => intro attempts h1 h2; omega
  | succ fuel ih =>
      intro attempts h1 h2
      simp only [attemptReconnectGo, hf attempts, Bool.false_eq_true, if_false]
      by_cases hlt : attempts + 1 < maxReconnectAttempts
      · have hrec := ih (attempts + 1) (by omega) hlt
        simp only [hlt, if_pos, List.length_cons]
        exact ⟨hrec.1, by omega⟩
      · have hfz : fuel = 0 := by omega
        subst hfz
        simp [hlt]

/-- C5: in every run of the reconnect loop from a reset counter, the
number of attempts made and the counter never exceed
maxReconnectAttempts = 5; the delay before the (i+1)-th retry equals
reconnectDelayBase * 2 ^ ((i+1) - 1); at most one error is ever reported;
and when every attempt fails the exhausted cap is reported exactly once
after exactly 5 attempts, with no further retries. -/
theorem C5_reconnect_cap_and_backoff (connectOk : Nat → Bool) :
    (attemptReconnect connectOk 0).delays.length ≤ maxReconnectAttempts ∧
    (attemptReconnect connectOk 0).finalAttempts ≤ maxReconnectAttempts ∧
    (∀ i, i < (attemptReconnect connectOk 0).delays.length →
      (attemptReconnect connectOk 0).delays.getD i 0 =
        reconnectDelayBase * 2 ^ ((i + 1) - 1)) ∧
    (attemptReconnect connectOk 0).errorReports ≤ 1 ∧
    ((∀ n, connectOk n = false) →
      (attemptReconnect connectOk 0).errorReports = 1 ∧
      (attemptReconnect connectOk 0).delays.length = maxReconnectAttempts) := by
  unfold attemptReconnect
  refine ⟨?_, ?_, ?_, ?_, ?_⟩
  · simpa using attemptReconnectGo_length_le connectOk (maxReconnectAttempts - 0) 0
  · simpa using attemptReconnectGo_final_le connectOk (maxReconnectAttempts - 0) 0
  · intro i h
    have := attemptReconnectGo_getD connectOk (maxReconnectAttempts - 0) 0 i h
    simpa using this
  · exact attemptReconnectGo_errors_le connectOk (maxReconnectAttempts - 0) 0
  · intro hf
    have := attemptReconnectGo_allfail connectOk hf (maxReconnectAttempts - 0) 0
      rfl (by decide)
    simpa using this

theorem C5_reconnect_cap_and_backoff_witness :
    0 < (attemptReconnect (fun _ => false) 0).delays.length ∧
    (attemptReconnect (fun _ => false) 0).delays.getD 0 0 =
      reconnectDelayBase * 2 ^ ((0 + 1) - 1) ∧
    (attemptReconnect (fun _ => false) 0).errorReports = 1 ∧
    (attemptReconnect (fun _ => false) 0).delays.length = maxReconnectAttempts :=
  ⟨by decide,
   (C5_reconnect_cap_and_backoff (fun _ => false)).2.2.1 0 (by decide),
   ((C5_reconnect_cap_and_backoff (fun _ => false)).2.2.2.2 (fun n => rfl)).1,
   ((C5_reconnect_cap_and_backoff (fun _ => false)).2.2.2.2 (fun n => rfl)).2⟩

/-- The encoder's output always fits the signed 16-bit range, so the
ToInt16 wrap-around never engages. -/
theorem pcm16Encode_range (x : ℚ) :
    -32768 ≤ pcm16Encode x ∧ pcm16Encode x ≤ 32767 := by
  have hlo : -1 ≤ clampSample x := le_max_left _ _
  have hhi : clampSample x ≤ 1 := max_le (by norm_num) (min_le_left _ _)
  simp only [pcm16Encode]
  by_cases hs : clampSample x < 0
  · rw [if_pos hs]
    unfold ratTrunc
    rw [if_pos (by nlinarith)]
    constructor
    · have h : ((-32768 : ℤ) : ℚ) ≤ clampSample x * 0x8000 := by
        push_cast
        nlinarith
      have h2 : ((-32768 : ℤ) : ℚ) ≤ (⌈clampSample x * 0x8000⌉ : ℚ) :=
        le_trans h (Int.le_ceil _)
      exact_mod_cast h2
    · have h0 : clampSample x * 0x8000 ≤ ((0 : ℤ) : ℚ) := by
        push_cast
        nlinarith
      have := Int.ceil_le.mpr h0
      omega
  · rw [if_neg hs]
    unfold ratTrunc
    rw [if_neg (by push_neg at hs; nlinarith)]
    push_neg at hs
    constructor
    · have h0 : ((0 : ℤ) : ℚ) ≤ clampSample x * 0x7FFF := by
        push_cast
        nlinarith
      have := Int.le_floor.mpr h0
      omega
    · have h : clampSample x * 0x7FFF ≤ ((32767 : ℤ) : ℚ) := by
        push_cast
        nlinarith
      have h2 : (⌊clampSample x * 0x7FFF⌋ : ℚ) ≤ ((32767 : ℤ) : ℚ) :=
        le_trans (Int.floor_le _) h
      exact_mod_cast h2

/-- C4 counterexample: the claimed 1/32768 round-trip bound fails at the
normalized sample 9/10.  There the encoder (scaling a positive sample by
0x7FFF and truncating) yields 29490, the decoder divides by 32768, and the
round-trip error is 3/81920 > 1/32768. -/
theorem C4_counterexample :
    ¬ |pcm16Decode (pcm16Encode (9 / 10)) - 9 / 10| ≤ 1 / 32768 := by
  have henc : pcm16Encode (9 / 10) = 29490 := by
    have hc : clampSample (9 / 10 : ℚ) = 9 / 10 := by
      unfold clampSample
      rw [min_eq_right (by norm_num), max_eq_right (by norm_num)]
    simp only [pcm16Encode, hc]
    rw [if_neg (by norm_num)]
    unfold ratTrunc
    rw [if_neg (by norm_num)]
    have h : ((9 : ℚ) / 10) * 0x7FFF = 294903 / 10 := by norm_num
    rw [h]
    norm_num
  rw [henc]
  unfold pcm16Decode
  rw [abs_le]
  norm_num

/-- C4 amended: for every normalized sample s in [-1, 1], the PCM16
round-trip error is strictly below 1/16384 (= 2/32768); the claimed
1/32768 bound holds on the non-positive side but fails for some positive
samples because the encoder scales positives by 0x7FFF while the decoder
divides by 32768. -/
theorem C4_pcm_roundtrip_amended (s : ℚ) (h1 : -1 ≤ s) (h2 : s ≤ 1) :
    |pcm16Decode (pcm16Encode s) - s| < 1 / 16384 := by
  have hc : clampSample s = s := by
    unfold clampSample
    rw [min_eq_right h2, max_eq_right h1]
  simp only [pcm16Encode, hc]
  by_cases hs : s < 0
  · rw [if_pos hs]
    unfold ratTrunc
    rw [if_pos (by nlinarith)]
    unfold pcm16Decode
    have hle := Int.le_ceil (s * 0x8000)
    have hlt := Int.ceil_lt_add_one (s * 0x8000)
    rw [abs_lt]
    constructor <;> [skip; skip] <;> linarith
  · rw [if_neg hs]
    unfold ratTrunc
    rw [if_neg (by push_neg at hs; nlinarith)]
    unfold pcm16Decode
    push_neg at hs
    have hle := Int.floor_le (s * 0x7FFF)
    have hlt := Int.sub_one_lt_floor (s * 0x7FFF)
    rw [abs_lt]
    constructor <;> [skip; skip] <;> linarith

theorem C4_pcm_roundtrip_amended_witness :
    |pcm16Decode (pcm16Encode (1 / 2)) - 1 / 2| < 1 / 16384 :=
  C4_pcm_roundtrip_amended (1 / 2) (by norm_num) (by norm_num)

end Lyra
